import Mathlib

/-!
Verification of the spawning-pool entity/component store.

Shallow embedding of `src/storage.rs` (the two storage backends) and of the
facade generated by `create_spawning_pool!` in `src/lib.rs`, instantiated —
as the repository's own tests do — with one component type per backend kind.
Entity ids (`u64` in the source) are modelled as `Nat`; the spec declares
counter overflow out of scope.
-/

set_option autoImplicit false
set_option maxRecDepth 8000

namespace SpawnPool

/-!
Entity ID: `pub type EntityId = u64;` in the source.  Ids are written as
plain `Nat` throughout; the spec reserves overflow of the 64-bit counter as
out of scope.
-/

/-! ### `HashMapStorage` (sparse, key-addressed backend)

The Rust backend wraps a `HashMap<EntityId, T>`.  We model the map as an
association list with unique keys; iteration order of the hash map is
unspecified, and no claim relies on it. -/

structure HashMapStorage (α : Type) where
  storage : List (Nat × α)
deriving Repr, DecidableEq

namespace HashMapStorage

variable {α : Type}

/-- `HashMapStorage::new` — empty map. -/
def new : HashMapStorage α := ⟨[]⟩

/-- `HashMapStorage::get` — `self.storage.get(&id)`. -/
def get (s : HashMapStorage α) (id : Nat) : Option α :=
  (s.storage.find? (fun p => p.1 == id)).map Prod.snd

/-- `HashMapStorage::get_mut` — same lookup as `get`; we model the value the
returned mutable handle exposes. -/
def get_mut (s : HashMapStorage α) (id : Nat) : Option α :=
  (s.storage.find? (fun p => p.1 == id)).map Prod.snd

/-- `HashMapStorage::set` — `self.storage.insert(id, comp)`: inserts or
overwrites the mapping for `id`. -/
def set (s : HashMapStorage α) (id : Nat) (comp : α) : HashMapStorage α :=
  ⟨(id, comp) :: s.storage.filter (fun p => p.1 != id)⟩

/-- `HashMapStorage::remove` — `self.storage.remove(&id)`: deletes the mapping
for `id` if present. -/
def remove (s : HashMapStorage α) (id : Nat) : HashMapStorage α :=
  ⟨s.storage.filter (fun p => p.1 != id)⟩

/-- `HashMapStorage::get_all` — every `(id, component)` mapping present. -/
def get_all (s : HashMapStorage α) : List (Nat × α) :=
  s.storage

end HashMapStorage

/-! ### `VectorStorage` (dense, index-addressed backend) -/

structure VectorStorage (α : Type) where
  size : Nat
  storage : List (Option α)
deriving Repr, DecidableEq

namespace VectorStorage

variable {α : Type}

/-- `Vec::resize(new_len, none)`: truncate to `n` or pad with `none` up to `n`. -/
def resizeNone (l : List (Option α)) (n : Nat) : List (Option α) :=
  if l.length ≤ n then l ++ List.replicate (n - l.length) none else l.take n

/-- `VectorStorage::new` — `size: 100, storage: vec![None; 100]`. -/
def new : VectorStorage α := ⟨100, List.replicate 100 none⟩

/-- `VectorStorage::get` — absent if `id >= self.size`, otherwise the content
of slot `id` (`self.storage.get(id)` flattened by `as_ref`). -/
def get (s : VectorStorage α) (id : Nat) : Option α :=
  if s.size ≤ id then none
  else match s.storage[id]? with
    | some c => c
    | none => none

/-- `VectorStorage::get_mut` — same bounds/emptiness rule as `get`; we model
the value the returned mutable handle exposes. -/
def get_mut (s : VectorStorage α) (id : Nat) : Option α :=
  if s.size ≤ id then none
  else match s.storage[id]? with
    | some c => c
    | none => none

/-- `VectorStorage::set` — if `id >= self.size`, resize the vector to `id * 2`
and set `size` to `id * 2`; then write `Some comp` at index `id`.  The Rust
index assignment `self.storage[id] = Some(comp)` is in bounds on every state
reachable from `new` (where `size = storage.len()` and `size ≥ 100`); out of
bounds `List.set` is a no-op. -/
def set (s : VectorStorage α) (id : Nat) (comp : α) : VectorStorage α :=
  if s.size ≤ id then
    { size := id * 2, storage := (resizeNone s.storage (id * 2)).set id (some comp) }
  else
    { s with storage := s.storage.set id (some comp) }

/-- `VectorStorage::remove` — if `id < self.size`, clear slot `id`; otherwise
a no-op. -/
def remove (s : VectorStorage α) (id : Nat) : VectorStorage α :=
  if id < s.size then { s with storage := s.storage.set id none } else s

/-- Helper for `get_all`: walk the slots carrying the current index, keeping
`(index, component)` for every non-empty slot — the Rust
`iter().enumerate()` loop. -/
def getAllAux : Nat → List (Option α) → List (Nat × α)
  | _, [] => []
  | i, none :: rest => getAllAux (i + 1) rest
  | i, some c :: rest => (i, c) :: getAllAux (i + 1) rest

/-- `VectorStorage::get_all` — `(id, component)` for every non-empty slot, in
ascending index order. -/
def get_all (s : VectorStorage α) : List (Nat × α) :=
  getAllAux 0 s.storage

end VectorStorage

/-! ### The facade generated by `create_spawning_pool!`

The macro wires one backend per registered component type into a single
struct.  Following the repository's own tests, we instantiate it with two
component types, one per backend kind:
`create_spawning_pool!((A, pos, VectorStorage), (B, vel, HashMapStorage))`.
The per-type accessors the macro generates are written out with an `A`/`B`
suffix in place of Rust's static trait dispatch.  The `removed` field is a
`HashSet<EntityId>`, modelled as a duplicate-free list (insertion skips
present elements; iteration order is unspecified and no claim relies on it).
-/

structure SpawningPool (A B : Type) where
  next_id : Nat
  removed : List Nat
  pos : VectorStorage A
  vel : HashMapStorage B

namespace SpawningPool

variable {A B : Type}

/-- `SpawningPool::new` — `next_id: 1`, empty removed set, fresh backends. -/
def new : SpawningPool A B :=
  ⟨1, [], VectorStorage.new, HashMapStorage.new⟩

/-- `HashSet::insert` on the removed set: idempotent insertion. -/
def insertRemoved (l : List Nat) (id : Nat) : List Nat :=
  if id ∈ l then l else id :: l

/-- `SpawningPool::spawn_entity` — returns `next_id` and increments it. -/
def spawn_entity (p : SpawningPool A B) : Nat × SpawningPool A B :=
  (p.next_id, { p with next_id := p.next_id + 1 })

/-- `SpawningPool::remove_entity` — `self.removed.insert(id)`. -/
def remove_entity (p : SpawningPool A B) (id : Nat) : SpawningPool A B :=
  { p with removed := insertRemoved p.removed id }

/-- `SpawningPool::cleanup_removed` — for every tracked id, call `remove` on
every backend, then clear the tracked set. -/
def cleanup_removed (p : SpawningPool A B) : SpawningPool A B :=
  { p with
    pos := p.removed.foldl (fun s i => s.remove i) p.pos
    vel := p.removed.foldl (fun s i => s.remove i) p.vel
    removed := [] }

/-- `SpawningPool::set::<A>` — suppressed when `id` is tracked removed,
otherwise forwarded to the `pos` backend. -/
def setA (p : SpawningPool A B) (id : Nat) (c : A) : SpawningPool A B :=
  if id ∈ p.removed then p else { p with pos := p.pos.set id c }

/-- `SpawningPool::set::<B>` — suppressed when `id` is tracked removed,
otherwise forwarded to the `vel` backend. -/
def setB (p : SpawningPool A B) (id : Nat) (c : B) : SpawningPool A B :=
  if id ∈ p.removed then p else { p with vel := p.vel.set id c }

/-- `SpawningPool::get::<A>` — absent when `id` is tracked removed, otherwise
the backend lookup. -/
def getA (p : SpawningPool A B) (id : Nat) : Option A :=
  if id ∈ p.removed then none else p.pos.get id

/-- `SpawningPool::get::<B>`. -/
def getB (p : SpawningPool A B) (id : Nat) : Option B :=
  if id ∈ p.removed then none else p.vel.get id

/-- `SpawningPool::force_get::<A>` — bypasses the tracked-removed check. -/
def force_getA (p : SpawningPool A B) (id : Nat) : Option A :=
  p.pos.get id

/-- `SpawningPool::force_get::<B>`. -/
def force_getB (p : SpawningPool A B) (id : Nat) : Option B :=
  p.vel.get id

/-- `SpawningPool::get_mut::<A>` — absent when `id` is tracked removed,
otherwise the backend `get_mut` lookup. -/
def get_mutA (p : SpawningPool A B) (id : Nat) : Option A :=
  if id ∈ p.removed then none else p.pos.get_mut id

/-- `SpawningPool::get_mut::<B>`. -/
def get_mutB (p : SpawningPool A B) (id : Nat) : Option B :=
  if id ∈ p.removed then none else p.vel.get_mut id

/-- `SpawningPool::remove::<A>` — suppressed when `id` is tracked removed. -/
def removeA (p : SpawningPool A B) (id : Nat) : SpawningPool A B :=
  if id ∈ p.removed then p else { p with pos := p.pos.remove id }

/-- `SpawningPool::remove::<B>`. -/
def removeB (p : SpawningPool A B) (id : Nat) : SpawningPool A B :=
  if id ∈ p.removed then p else { p with vel := p.vel.remove id }

/-- `SpawningPool::get_all::<A>` — backend `get_all`, filtered against the
tracked-removed set. -/
def get_allA (p : SpawningPool A B) : List (Nat × A) :=
  p.pos.get_all.filter (fun x => decide (x.1 ∉ p.removed))

/-- `SpawningPool::get_all::<B>`. -/
def get_allB (p : SpawningPool A B) : List (Nat × B) :=
  p.vel.get_all.filter (fun x => decide (x.1 ∉ p.removed))

/-- Run `n` consecutive `spawn_entity` calls, collecting the returned ids. -/
def spawnMany (p : SpawningPool A B) : Nat → List Nat × SpawningPool A B
  | 0 => ([], p)
  | n + 1 =>
    let (id, p') := p.spawn_entity
    let (ids, p'') := p'.spawnMany n
    (id :: ids, p'')

end SpawningPool

/-! ### Supporting lemmas -/

/-- Writing back the value a slot already holds leaves the list unchanged. -/
theorem list_set_of_getElem? {α : Type} :
    ∀ (l : List α) (i : Nat) (a : α), l[i]? = some a → l.set i a = l
  | [], _, _, h => by simp at h
  | x :: xs, 0, a, h => by simp at h; simp [h]
  | x :: xs, i + 1, a, h => by
    simp only [List.getElem?_cons_succ] at h
    simp [List.set, list_set_of_getElem? xs i a h]

namespace HashMapStorage

variable {α : Type}

theorem get_set_self_hash (s : HashMapStorage α) (id : Nat) (v : α) :
    (s.set id v).get id = some v := by
  simp [get, set, List.find?_cons_of_pos]

theorem get_remove_self_hash (s : HashMapStorage α) (id : Nat) :
    (s.remove id).get id = none := by
  simp only [get, remove, Option.map_eq_none', List.find?_eq_none]
  intro x hx
  rcases List.mem_filter.mp hx with ⟨-, hne⟩
  simpa using hne

/-- Removing any key preserves the absence of `id`. -/
theorem get_remove_of_get_none_hash (s : HashMapStorage α) (i j : Nat)
    (h : s.get i = none) : (s.remove j).get i = none := by
  simp only [get, remove, Option.map_eq_none', List.find?_eq_none] at h ⊢
  intro x hx
  exact h x (List.mem_filter.mp hx).1

/-- `remove` on a key with no mapping leaves the store unchanged. -/
theorem remove_of_get_none_hash (s : HashMapStorage α) (id : Nat)
    (h : s.get id = none) : s.remove id = s := by
  simp only [get, Option.map_eq_none', List.find?_eq_none] at h
  cases s with
  | mk l =>
    simp only [remove, HashMapStorage.mk.injEq]
    exact List.filter_eq_self.mpr (fun x hx => by simpa using h x hx)

end HashMapStorage

namespace VectorStorage

variable {α : Type}

theorem length_resizeNone (l : List (Option α)) (n : Nat) :
    (resizeNone l n).length = n := by
  unfold resizeNone
  split <;> simp <;> omega

theorem get_set_self (s : VectorStorage α) (id : Nat) (v : α)
    (hwf : s.storage.length = s.size) (hpos : 0 < s.size) :
    (s.set id v).get id = some v := by
  by_cases hgrow : s.size ≤ id
  · have hid : 0 < id := lt_of_lt_of_le hpos hgrow
    have hlt : id < (resizeNone s.storage (id * 2)).length := by
      rw [length_resizeNone]; omega
    have hno : ¬ (id * 2 ≤ id) := by omega
    simp [set, get, hgrow, hno, List.getElem?_set_self hlt]
  · have hlt : id < s.storage.length := by omega
    simp [set, get, hgrow, List.getElem?_set_self hlt]

theorem get_remove_self (s : VectorStorage α) (id : Nat) :
    (s.remove id).get id = none := by
  by_cases h : id < s.size
  · by_cases hlen : id < s.storage.length
    · simp [remove, get, h, Nat.not_le.mpr h, List.getElem?_set_self hlen]
    · have hnone : (s.storage.set id none)[id]? = none := by
        rw [List.set_eq_of_length_le (by omega)]
        exact List.getElem?_eq_none (by omega)
      simp [remove, get, h, Nat.not_le.mpr h, hnone]
  · simp [remove, get, h, Nat.not_lt.mp h]

/-- `get` written with `Option.join` in place of the `match`. -/
theorem get_eq_join (s : VectorStorage α) (id : Nat) :
    s.get id = if s.size ≤ id then none else (s.storage[id]?).join := by
  unfold get
  split
  · rfl
  · rcases h : s.storage[id]? with - | c <;> simp [h]

/-- Indexing into a resized slot sequence that only grew. -/
theorem getElem?_resizeNone (l : List (Option α)) (n j : Nat)
    (hln : l.length ≤ n) :
    (resizeNone l n)[j]? =
      if j < l.length then l[j]? else if j < n then some none else none := by
  unfold resizeNone
  rw [if_pos hln, List.getElem?_append]
  by_cases hj : j < l.length
  · rw [if_pos hj, if_pos hj]
  · rw [if_neg hj, if_neg hj]
    by_cases hn : j < n
    · rw [if_pos hn, List.getElem?_replicate_of_lt (by omega)]
    · rw [if_neg hn]
      exact List.getElem?_eq_none (by simp; omega)

/-- `set i` never makes a distinct absent id `j` present. -/
theorem get_set_none_of_ne (s : VectorStorage α) (i j : Nat) (v : α)
    (hij : i ≠ j) (hwf : s.storage.length = s.size) (hj : s.get j = none) :
    (s.set i v).get j = none := by
  rw [get_eq_join] at hj
  rw [get_eq_join]
  by_cases hge : s.size ≤ i
  · have hln : s.storage.length ≤ i * 2 := by omega
    simp only [set, hge, if_true]
    by_cases hj2 : i * 2 ≤ j
    · simp [hj2]
    · rw [if_neg hj2, List.getElem?_set_ne hij,
        getElem?_resizeNone s.storage (i * 2) j hln]
      by_cases hjl : j < s.storage.length
      · rw [if_pos hjl]
        rw [if_neg (by omega : ¬ s.size ≤ j)] at hj
        exact hj
      · rw [if_neg hjl]
        split
        · rfl
        · rfl
  · simp only [set, hge, if_false]
    by_cases hjs : s.size ≤ j
    · simp [hjs]
    · rw [if_neg hjs] at hj ⊢
      rw [List.getElem?_set_ne hij]
      exact hj

/-- Clearing any slot preserves the absence of `id`. -/
theorem get_remove_of_get_none (s : VectorStorage α) (i j : Nat)
    (h : s.get i = none) : (s.remove j).get i = none := by
  by_cases hij : i = j
  · subst hij; exact get_remove_self s i
  · unfold remove
    split
    · unfold get at h ⊢
      simpa [List.getElem?_set_ne (fun hc => hij hc.symm)] using h
    · exact h

/-- `remove` on an id holding no component leaves the store unchanged. -/
theorem remove_of_get_none (s : VectorStorage α) (id : Nat)
    (h : s.get id = none) : s.remove id = s := by
  unfold remove
  split
  · rename_i hlt
    unfold get at h
    rw [if_neg (Nat.not_le.mpr hlt)] at h
    rcases hsl : s.storage[id]? with - | c
    · have : s.storage.length ≤ id := by
        by_contra hc
        rw [List.getElem?_eq_getElem (by omega)] at hsl
        exact Option.noConfusion hsl
      cases s
      simp [List.set_eq_of_length_le this]
    · rw [hsl] at h
      cases c with
      | none => cases s; simp [list_set_of_getElem? _ _ _ hsl]
      | some c => exact absurd h (by simp)
  · rfl

end VectorStorage

namespace VectorStorage

variable {α : Type}

/-- Membership in `getAllAux i l`: exactly the non-empty slots, offset by `i`. -/
theorem mem_getAllAux : ∀ (l : List (Option α)) (i j : Nat) (v : α),
    (j, v) ∈ getAllAux i l ↔ ∃ k, j = i + k ∧ l[k]? = some (some v)
  | [], i, j, v => by simp [getAllAux]
  | none :: rest, i, j, v => by
    rw [getAllAux, mem_getAllAux rest (i + 1) j v]
    constructor
    · rintro ⟨k, rfl, hk⟩
      exact ⟨k + 1, by omega, by simpa using hk⟩
    · rintro ⟨k, rfl, hk⟩
      cases k with
      | zero => simp at hk
      | succ k => exact ⟨k, by omega, by simpa using hk⟩
  | some c :: rest, i, j, v => by
    rw [getAllAux, List.mem_cons, mem_getAllAux rest (i + 1) j v]
    constructor
    · rintro (h | ⟨k, rfl, hk⟩)
      · obtain ⟨rfl, rfl⟩ : j = i ∧ v = c := by simpa [Prod.ext_iff] using h
        exact ⟨0, by omega, by simp⟩
      · exact ⟨k + 1, by omega, by simpa using hk⟩
    · rintro ⟨k, rfl, hk⟩
      cases k with
      | zero =>
        left
        simp only [List.getElem?_cons_zero, Option.some.injEq] at hk
        simp [hk]
      | succ k => exact Or.inr ⟨k, by omega, by simpa using hk⟩

/-- Every index reported by `getAllAux i l` is at least `i`. -/
theorem le_fst_of_mem_getAllAux : ∀ (l : List (Option α)) (i : Nat)
    (x : Nat × α), x ∈ getAllAux i l → i ≤ x.1
  | [], _, _, h => absurd h (List.not_mem_nil _)
  | none :: rest, i, x, h => by
    have := le_fst_of_mem_getAllAux rest (i + 1) x (by simpa [getAllAux] using h)
    omega
  | some c :: rest, i, x, h => by
    rw [getAllAux, List.mem_cons] at h
    rcases h with rfl | h
    · exact Nat.le_refl i
    · have := le_fst_of_mem_getAllAux rest (i + 1) x h
      omega

/-- `getAllAux` lists indices in strictly ascending order. -/
theorem pairwise_getAllAux : ∀ (l : List (Option α)) (i : Nat),
    List.Pairwise (fun a b => a.1 < b.1) (getAllAux i l)
  | [], _ => List.Pairwise.nil
  | none :: rest, i => by
    rw [getAllAux]; exact pairwise_getAllAux rest (i + 1)
  | some c :: rest, i => by
    rw [getAllAux]
    refine List.Pairwise.cons (fun y hy => ?_) (pairwise_getAllAux rest (i + 1))
    have := le_fst_of_mem_getAllAux rest (i + 1) y hy
    omega

end VectorStorage

namespace SpawningPool

variable {A B : Type}

/-- Closed form of `spawnMany`: the ids come out as the consecutive range
starting at the current counter, and only the counter changes. -/
theorem spawnMany_eq (p : SpawningPool A B) : ∀ n : Nat,
    p.spawnMany n = (List.range' p.next_id n, { p with next_id := p.next_id + n })
  | 0 => by simp [spawnMany]
  | n + 1 => by
    simp only [spawnMany, spawn_entity, spawnMany_eq _ n]
    simp [List.range'_succ, Nat.add_comm, Nat.add_assoc, Nat.add_left_comm]

/-- Folding `remove` over any id list preserves absence in the dense store. -/
theorem foldl_remove_none_vec {α : Type} : ∀ (l : List Nat) (s : VectorStorage α)
    (i : Nat), s.get i = none →
    (l.foldl (fun s j => s.remove j) s).get i = none
  | [], _, _, h => h
  | j :: t, s, i, h =>
    foldl_remove_none_vec t _ i (VectorStorage.get_remove_of_get_none s i j h)

/-- Folding `remove` over an id list clears every listed id in the dense
store. -/
theorem foldl_remove_mem_vec {α : Type} : ∀ (l : List Nat) (s : VectorStorage α)
    (i : Nat), i ∈ l →
    (l.foldl (fun s j => s.remove j) s).get i = none
  | [], _, i, h => absurd h (List.not_mem_nil i)
  | j :: t, s, i, h => by
    rcases List.mem_cons.mp h with rfl | ht
    · exact foldl_remove_none_vec t _ i (VectorStorage.get_remove_self s i)
    · exact foldl_remove_mem_vec t _ i ht

/-- Folding `remove` over any id list preserves absence in the sparse store. -/
theorem foldl_remove_none_hash {α : Type} : ∀ (l : List Nat)
    (s : HashMapStorage α) (i : Nat), s.get i = none →
    (l.foldl (fun s j => s.remove j) s).get i = none
  | [], _, _, h => h
  | j :: t, s, i, h =>
    foldl_remove_none_hash t _ i (HashMapStorage.get_remove_of_get_none_hash s i j h)

/-- Folding `remove` over an id list clears every listed id in the sparse
store. -/
theorem foldl_remove_mem_hash {α : Type} : ∀ (l : List Nat)
    (s : HashMapStorage α) (i : Nat), i ∈ l →
    (l.foldl (fun s j => s.remove j) s).get i = none
  | [], _, i, h => absurd h (List.not_mem_nil i)
  | j :: t, s, i, h => by
    rcases List.mem_cons.mp h with rfl | ht
    · exact foldl_remove_none_hash t _ i (HashMapStorage.get_remove_self_hash s i)
    · exact foldl_remove_mem_hash t _ i ht

/-- `id` is in the removed set right after `remove_entity id`. -/
theorem mem_insertRemoved_self (l : List Nat) (id : Nat) :
    id ∈ insertRemoved l id := by
  unfold insertRemoved
  split
  · assumption
  · exact List.mem_cons_self id l

end SpawningPool

/-! ### Claims -/

open SpawningPool

/-- C1: for every facade state, every registered component type, id `i` and
value `v`: after `remove_entity i`, `get` and `get_mut` return absent, `set`
leaves the backend's stored data unchanged, and `force_get` still returns the
data `i` held before removal (no backend was touched). -/
theorem claim_C1 {A B : Type} (p : SpawningPool A B) (i : Nat) (vA : A) (vB : B) :
    (p.remove_entity i).getA i = none ∧
    (p.remove_entity i).getB i = none ∧
    (p.remove_entity i).get_mutA i = none ∧
    (p.remove_entity i).get_mutB i = none ∧
    ((p.remove_entity i).setA i vA).pos = (p.remove_entity i).pos ∧
    ((p.remove_entity i).setB i vB).vel = (p.remove_entity i).vel ∧
    (p.remove_entity i).force_getA i = p.force_getA i ∧
    (p.remove_entity i).force_getB i = p.force_getB i := by
  have hm : i ∈ (p.remove_entity i).removed := mem_insertRemoved_self p.removed i
  refine ⟨?_, ?_, ?_, ?_, ?_, ?_, rfl, rfl⟩ <;>
    simp [getA, getB, get_mutA, get_mutB, setA, setB, hm]

/-- C2: after `cleanup_removed`, `force_get` is absent for every id that was
tracked removed, for every registered component type, and the tracked-removed
set is empty. -/
theorem claim_C2 {A B : Type} (p : SpawningPool A B) (i : Nat)
    (h : i ∈ p.removed) :
    p.cleanup_removed.force_getA i = none ∧
    p.cleanup_removed.force_getB i = none ∧
    p.cleanup_removed.removed = [] :=
  ⟨foldl_remove_mem_vec p.removed p.pos i h,
   foldl_remove_mem_hash p.removed p.vel i h, rfl⟩

/-- Witness for C2 at a concrete pool tracking id 5. -/
theorem claim_C2_witness :
    5 ∈ (SpawningPool.mk 3 [5] VectorStorage.new
      (HashMapStorage.mk [(5, 9)]) : SpawningPool Nat Nat).removed ∧
    ((SpawningPool.mk 3 [5] VectorStorage.new
      (HashMapStorage.mk [(5, 9)]) : SpawningPool Nat Nat).cleanup_removed.force_getA 5 = none ∧
     (SpawningPool.mk 3 [5] VectorStorage.new
      (HashMapStorage.mk [(5, 9)]) : SpawningPool Nat Nat).cleanup_removed.force_getB 5 = none ∧
     (SpawningPool.mk 3 [5] VectorStorage.new
      (HashMapStorage.mk [(5, 9)]) : SpawningPool Nat Nat).cleanup_removed.removed = []) :=
  ⟨by decide, claim_C2 _ 5 (by decide)⟩

/-- C3: `n` spawns on a fresh facade return exactly the ids `1, 2, ..., n`
(strictly increasing by 1 from 1, no repeats), and the only state change is
the counter advancing to `n + 1`. -/
theorem claim_C3 {A B : Type} (n : Nat) :
    ((new : SpawningPool A B).spawnMany n).1 = List.range' 1 n ∧
    ((new : SpawningPool A B).spawnMany n).1.Nodup ∧
    ((new : SpawningPool A B).spawnMany n).2.next_id = n + 1 ∧
    ((new : SpawningPool A B).spawnMany n).2.removed = [] ∧
    ((new : SpawningPool A B).spawnMany n).2.pos = VectorStorage.new ∧
    ((new : SpawningPool A B).spawnMany n).2.vel = HashMapStorage.new := by
  have h := spawnMany_eq (new : SpawningPool A B) n
  refine ⟨?_, ?_, ?_, ?_, ?_, ?_⟩ <;>
    (rw [h]; simp [new, List.nodup_range', Nat.add_comm])

/-- C4: `set i v` immediately followed by `get i` returns `v`, for both
backend kinds, for any id including `i` beyond the dense store's capacity
(the dense-store state satisfies the well-formedness every reachable state
has: slot count equals `size` and `size` positive). -/
theorem claim_C4 {A B : Type} (sv : VectorStorage A) (sh : HashMapStorage B)
    (i : Nat) (vA : A) (vB : B)
    (hwf : sv.storage.length = sv.size) (hpos : 0 < sv.size) :
    (sv.set i vA).get i = some vA ∧ (sh.set i vB).get i = some vB :=
  ⟨VectorStorage.get_set_self sv i vA hwf hpos,
   HashMapStorage.get_set_self_hash sh i vB⟩

/-- Witness for C4 at fresh stores and id 250 (past the initial capacity). -/
theorem claim_C4_witness :
    (VectorStorage.new : VectorStorage Nat).storage.length =
      (VectorStorage.new : VectorStorage Nat).size ∧
    0 < (VectorStorage.new : VectorStorage Nat).size ∧
    (((VectorStorage.new : VectorStorage Nat).set 250 7).get 250 = some 7 ∧
     ((HashMapStorage.new : HashMapStorage Nat).set 250 8).get 250 = some 8) :=
  ⟨by decide, by decide, claim_C4 VectorStorage.new HashMapStorage.new 250 7 8
    (by decide) (by decide)⟩

/-- C5: the dense store starts with capacity 100 and all slots empty; a `set`
whose id reaches the current capacity grows the slot sequence and makes the
capacity exactly `id * 2`; in particular after construction and `set 250 v`,
the capacity is ≥ 251, `get 250` returns `v`, and `get 50` is absent
(the general state satisfies the reachable-state well-formedness: slot count
equals `size`, `size` positive). -/
theorem claim_C5 {α : Type} (s : VectorStorage α) (i : Nat) (v : α)
    (hwf : s.storage.length = s.size) (hpos : 0 < s.size) (hge : s.size ≤ i) :
    (VectorStorage.new : VectorStorage α).size = 100 ∧
    (VectorStorage.new : VectorStorage α).storage = List.replicate 100 none ∧
    (s.set i v).size = i * 2 ∧
    (s.set i v).storage.length = i * 2 ∧
    s.storage.length < (s.set i v).storage.length ∧
    ((VectorStorage.new : VectorStorage α).set 250 v).size = 500 ∧
    251 ≤ ((VectorStorage.new : VectorStorage α).set 250 v).size ∧
    ((VectorStorage.new : VectorStorage α).set 250 v).get 250 = some v ∧
    ((VectorStorage.new : VectorStorage α).set 250 v).get 50 = none := by
  have hsz : (s.set i v).size = i * 2 := by simp [VectorStorage.set, hge]
  have hlen : (s.set i v).storage.length = i * 2 := by
    simp [VectorStorage.set, hge, VectorStorage.length_resizeNone]
  have hwfnew : (VectorStorage.new : VectorStorage α).storage.length =
      (VectorStorage.new : VectorStorage α).size := by
    simp [VectorStorage.new]
  have hsz250 : ((VectorStorage.new : VectorStorage α).set 250 v).size = 500 := by
    simp [VectorStorage.new, VectorStorage.set]
  have h50 : (VectorStorage.new : VectorStorage α).get 50 = none := by
    rw [VectorStorage.get_eq_join]
    simp [VectorStorage.new, List.getElem?_replicate_of_lt
      (by omega : (50 : Nat) < 100)]
  refine ⟨rfl, rfl, hsz, hlen, by omega, hsz250, by omega, ?_, ?_⟩
  · exact VectorStorage.get_set_self _ 250 v hwfnew (by simp [VectorStorage.new])
  · exact VectorStorage.get_set_none_of_ne _ 250 50 v (by omega) hwfnew h50

/-- Witness for C5 at a fresh store and `set 250`. -/
theorem claim_C5_witness :
    (VectorStorage.new : VectorStorage Nat).storage.length =
      (VectorStorage.new : VectorStorage Nat).size ∧
    0 < (VectorStorage.new : VectorStorage Nat).size ∧
    (VectorStorage.new : VectorStorage Nat).size ≤ 250 ∧
    (((VectorStorage.new : VectorStorage Nat).set 250 7).size = 500 ∧
     ((VectorStorage.new : VectorStorage Nat).set 250 7).get 250 = some 7 ∧
     ((VectorStorage.new : VectorStorage Nat).set 250 7).get 50 = none) :=
  ⟨by decide, by decide, by decide,
   (claim_C5 VectorStorage.new 250 7 (by decide) (by decide) (by decide)).2.2.2.2.2.1,
   (claim_C5 VectorStorage.new 250 7 (by decide) (by decide) (by decide)).2.2.2.2.2.2.2.1,
   (claim_C5 VectorStorage.new 250 7 (by decide) (by decide) (by decide)).2.2.2.2.2.2.2.2⟩

/-- C6: `get_all` never returns a pair whose id is currently tracked removed,
for every registered component type. -/
theorem claim_C6 {A B : Type} (p : SpawningPool A B) :
    (∀ x ∈ p.get_allA, x.1 ∉ p.removed) ∧
    (∀ y ∈ p.get_allB, y.1 ∉ p.removed) := by
  constructor
  · intro x hx
    simp only [get_allA, List.mem_filter, decide_eq_true_eq] at hx
    exact hx.2
  · intro y hy
    simp only [get_allB, List.mem_filter, decide_eq_true_eq] at hy
    exact hy.2

/-- Witness for C6 at a concrete pool whose `get_all` output is non-empty. -/
theorem claim_C6_witness :
    ((2, 7) ∈ (SpawningPool.mk 3 [1] (VectorStorage.mk 3 [none, none, some 7])
      (HashMapStorage.mk [(4, 9)]) : SpawningPool Nat Nat).get_allA ∧
     (2, 7).1 ∉ (SpawningPool.mk 3 [1] (VectorStorage.mk 3 [none, none, some 7])
      (HashMapStorage.mk [(4, 9)]) : SpawningPool Nat Nat).removed) ∧
    ((4, 9) ∈ (SpawningPool.mk 3 [1] (VectorStorage.mk 3 [none, none, some 7])
      (HashMapStorage.mk [(4, 9)]) : SpawningPool Nat Nat).get_allB ∧
     (4, 9).1 ∉ (SpawningPool.mk 3 [1] (VectorStorage.mk 3 [none, none, some 7])
      (HashMapStorage.mk [(4, 9)]) : SpawningPool Nat Nat).removed) :=
  ⟨⟨by decide, (claim_C6 _).1 (2, 7) (by decide)⟩,
   ⟨by decide, (claim_C6 _).2 (4, 9) (by decide)⟩⟩

/-- C7: `remove` is total (never an error) for both backend kinds; after
`remove i`, `get i` is absent; and `remove i` on an id holding no component
leaves the backend state unchanged. -/
theorem claim_C7 {A B : Type} (sv : VectorStorage A) (sh : HashMapStorage B)
    (i : Nat) :
    (sv.remove i).get i = none ∧
    (sh.remove i).get i = none ∧
    (sv.get i = none → sv.remove i = sv) ∧
    (sh.get i = none → sh.remove i = sh) :=
  ⟨VectorStorage.get_remove_self sv i, HashMapStorage.get_remove_self_hash sh i,
   VectorStorage.remove_of_get_none sv i, HashMapStorage.remove_of_get_none_hash sh i⟩

/-- Witness for C7 at fresh stores and id 3 (no component held, and 103 past
the dense capacity). -/
theorem claim_C7_witness :
    (VectorStorage.new : VectorStorage Nat).get 3 = none ∧
    (HashMapStorage.new : HashMapStorage Nat).get 3 = none ∧
    (((VectorStorage.new : VectorStorage Nat).remove 3).get 3 = none ∧
     ((HashMapStorage.new : HashMapStorage Nat).remove 3).get 3 = none ∧
     ((VectorStorage.new : VectorStorage Nat).get 3 = none →
       (VectorStorage.new : VectorStorage Nat).remove 3 = VectorStorage.new) ∧
     ((HashMapStorage.new : HashMapStorage Nat).get 3 = none →
       (HashMapStorage.new : HashMapStorage Nat).remove 3 = HashMapStorage.new)) :=
  ⟨by decide, by decide, claim_C7 VectorStorage.new HashMapStorage.new 3⟩

/-- C8: no facade operation ever decreases `next_id`: `spawn_entity` advances
it by one and every mutating operation leaves it unchanged (the readers
`get`/`get_mut`/`force_get`/`get_all` take the state unmodified), so no id is
issued twice. -/
theorem claim_C8 {A B : Type} (p : SpawningPool A B) (i : Nat) (vA : A) (vB : B) :
    (p.spawn_entity).2.next_id = p.next_id + 1 ∧
    (p.remove_entity i).next_id = p.next_id ∧
    p.cleanup_removed.next_id = p.next_id ∧
    (p.setA i vA).next_id = p.next_id ∧
    (p.setB i vB).next_id = p.next_id ∧
    (p.removeA i).next_id = p.next_id ∧
    (p.removeB i).next_id = p.next_id := by
  refine ⟨rfl, rfl, rfl, ?_, ?_, ?_, ?_⟩ <;>
    first
      | (unfold setA; split <;> rfl)
      | (unfold setB; split <;> rfl)
      | (unfold removeA; split <;> rfl)
      | (unfold removeB; split <;> rfl)

/-- C9: the dense store's `get_all` holds exactly one pair per non-empty slot
— `(i, v)` is listed iff slot `i` holds `v` — and the listed ids are strictly
ascending (hence no slot is listed twice). -/
theorem claim_C9 {α : Type} (s : VectorStorage α) (i : Nat) (v : α) :
    ((i, v) ∈ s.get_all ↔ s.storage[i]? = some (some v)) ∧
    List.Pairwise (fun a b => a.1 < b.1) s.get_all :=
  ⟨by simpa using VectorStorage.mem_getAllAux s.storage 0 i v,
   VectorStorage.pairwise_getAllAux s.storage 0⟩

/-- C10: on an id that is not tracked removed, `force_get` and `get` agree,
for every registered component type. -/
theorem claim_C10 {A B : Type} (p : SpawningPool A B) (i : Nat)
    (h : i ∉ p.removed) :
    p.force_getA i = p.getA i ∧ p.force_getB i = p.getB i := by
  constructor <;> simp [force_getA, force_getB, getA, getB, get_mutA, h]

/-- Witness for C10 at a concrete pool holding data for id 2. -/
theorem claim_C10_witness :
    2 ∉ (SpawningPool.mk 3 [1] (VectorStorage.mk 3 [none, none, some 7])
      (HashMapStorage.mk [(2, 9)]) : SpawningPool Nat Nat).removed ∧
    ((SpawningPool.mk 3 [1] (VectorStorage.mk 3 [none, none, some 7])
      (HashMapStorage.mk [(2, 9)]) : SpawningPool Nat Nat).force_getA 2 =
     (SpawningPool.mk 3 [1] (VectorStorage.mk 3 [none, none, some 7])
      (HashMapStorage.mk [(2, 9)]) : SpawningPool Nat Nat).getA 2 ∧
     (SpawningPool.mk 3 [1] (VectorStorage.mk 3 [none, none, some 7])
      (HashMapStorage.mk [(2, 9)]) : SpawningPool Nat Nat).force_getB 2 =
     (SpawningPool.mk 3 [1] (VectorStorage.mk 3 [none, none, some 7])
      (HashMapStorage.mk [(2, 9)]) : SpawningPool Nat Nat).getB 2) :=
  ⟨by decide, claim_C10 _ 2 (by decide)⟩

end SpawnPool
